import Mathlib

/-!
Verification of the PhysX mesh-cooking cache (`geometryToPxMesh` and
`PMeshHandle`), a shallow embedding of `src/unnamed/part_001`.

Modelling conventions:
* JavaScript numbers appearing in the scale policy are embedded as exact
  rationals (`ℚ`); buffers are Lean lists of their element values.
* The module-level `cache` Map, the JS heap of `item` objects, the foreign
  (WASM) memory allocations made through `PHYSX._webidl_malloc` /
  `PHYSX._webidl_free`, the set of live cooked native resources, and the
  number of native cook invocations are gathered in one explicit state
  record `St`; every function of the source that touches them becomes a
  state-passing Lean function.
* The behaviour of the native cook routines (`PHYSX.CreateConvexMesh`,
  `PHYSX.CreateTriangleMesh`) is external to the repository, so it is a
  parameter `CookEnv`: for each geometry and mode it either returns a fresh
  cooked mesh, returns a null result, or throws.
* A JavaScript exception escaping `geometryToPxMesh` is an `Except.error`
  result; the state at the moment of the throw is returned alongside, so
  that leaked allocations remain observable.
-/

namespace Metameme

/-- Element width of a three.js index `BufferAttribute` array
(`Uint8Array`, `Uint16Array` or `Uint32Array`). -/
inductive IndexWidth
  | u8
  | u16
  | u32
deriving DecidableEq, Repr

/-- An index buffer: its typed-array width and its element values.
A well-formed buffer of width `u8` holds values `< 256`. -/
structure IndexBuffer where
  width : IndexWidth
  data : List Nat
deriving DecidableEq, Repr

/-- The part of a three.js `BufferGeometry` read by `geometryToPxMesh`:
its `uuid`, the size of its (already computed) bounding box per axis
(`bbox.getSize(size)`), the flat `position.array` values, and the optional
`index` buffer.  The de-interleave branch of the source copies an
interleaved attribute into a fresh flat buffer with the same logical
values, so `positions` is that flat view in either case. -/
structure Geometry where
  uuid : String
  sizeX : ℚ
  sizeY : ℚ
  sizeZ : ℚ
  positions : List ℚ
  index : Option IndexBuffer
deriving DecidableEq, Repr

/-- `const TARGET_EXTENT = 1.0` (line 36 of the source). -/
def TARGET_EXTENT : ℚ := 1

/-- `const maxExtent = Math.max(size.x, size.y, size.z)` (line 35). -/
def maxExtent (g : Geometry) : ℚ :=
  max g.sizeX (max g.sizeY g.sizeZ)

/-- `const bakeScale = maxExtent > TARGET_EXTENT * 5 ? TARGET_EXTENT / maxExtent : 1.0`
(line 37). -/
def bakeScale (g : Geometry) : ℚ :=
  if TARGET_EXTENT * 5 < maxExtent g then TARGET_EXTENT / maxExtent g else 1

/-- The cache key: `` `${geometry.uuid}_${convex ? 'convex' : 'triangles'}_bs${bakeScale}` ``
(line 42). -/
def meshId (g : Geometry) (convex : Bool) : String :=
  g.uuid ++ "_" ++ (if convex then "convex" else "triangles") ++ "_bs"
    ++ toString (bakeScale g)

/-- Lines 72-76: `scaledPositions` is the original `position.array` itself
when `bakeScale === 1.0`, and otherwise a freshly allocated buffer with
every element multiplied by `bakeScale`. -/
def scaledPositions (g : Geometry) : List ℚ :=
  if bakeScale g = 1 then g.positions
  else g.positions.map (fun p => p * bakeScale g)

/-- Lines 101-110: indices start as `index.array`; a `Uint8Array` is
coerced up to a fresh `Uint16Array` by the element-wise copy
`indices[i] = index.array[i]` (each store is a `Uint16Array` store, hence
reduction mod 2^16); any other width is used as is. -/
def normalizeIndices (ib : IndexBuffer) : IndexBuffer :=
  match ib.width with
  | .u8 => ⟨.u16, ib.data.map (fun v => v % 65536)⟩
  | _ => ib

/-- A cache entry: the JS object `{ id, pmesh, refs, bakeScale }` built on
line 148.  `pmesh` is the identifier of the cooked native resource. -/
structure Item where
  id : String
  pmesh : Nat
  refs : Int
  bake : ℚ
deriving DecidableEq, Repr

/-- A `PMeshHandle`: `value` is `item.pmesh` until release nulls it,
`item` is a reference (index into the item heap) to the shared cache
entry, `released` is the idempotence guard. -/
structure Handle where
  value : Option Nat
  item : Nat
  released : Bool
deriving DecidableEq, Repr

/-- What a transient foreign-memory allocation was made for: the points
buffer (line 78) or the triangle index buffer (line 113). -/
inductive AllocKind
  | points
  | indexData
deriving DecidableEq, Repr

/-- The mutable state of the module: the JS heap of `item` objects
(addressed by index; an object outlives its cache entry), the `cache` Map
as an association list `id ↦ item reference`, the live foreign-memory
allocations with fresh-pointer counter, the live cooked native resources
with fresh-id counter, and the number of native cook invocations. -/
structure St where
  items : List Item
  cache : List (String × Nat)
  livePtrs : List (Nat × AllocKind)
  nextPtr : Nat
  liveMeshes : List Nat
  nextMesh : Nat
  cookCount : Nat
deriving DecidableEq, Repr

/-- The empty initial state: `const cache = new Map()`, nothing allocated,
nothing cooked. -/
def St.initial : St :=
  ⟨[], [], [], 0, [], 0, 0⟩

/-- `PHYSX._webidl_malloc`: returns a fresh pointer and records the live
allocation. -/
def mallocFM (k : AllocKind) (st : St) : Nat × St :=
  (st.nextPtr,
   { st with livePtrs := (st.nextPtr, k) :: st.livePtrs, nextPtr := st.nextPtr + 1 })

/-- `PHYSX._webidl_free(p)`: the allocation at `p` is no longer live. -/
def freeFM (p : Nat) (st : St) : St :=
  { st with livePtrs := st.livePtrs.filter (fun q => q.1 != p) }

/-- Outcome of one native cook invocation: a cooked mesh is produced, the
routine returns a null/undefined result, or it throws. -/
inductive CookOutcome
  | ok
  | nullResult
  | throws
deriving DecidableEq, Repr

/-- Environment: behaviour of the native cook routines per geometry and
per mode (`convex = true` for `CreateConvexMesh`, `false` for
`CreateTriangleMesh`). -/
def CookEnv : Type :=
  Geometry → Bool → CookOutcome

/-- A JavaScript exception escaping `geometryToPxMesh`: the `TypeError`
raised by reading `index.array` when `geometry.index` is null (line 101) —
the `InvalidGeometry` contract violation — or a throw of the native convex
cook routine, which no try/catch guards (line 90). -/
inductive JsError
  | typeError
  | thrown
deriving DecidableEq, Repr

/-- The `PMeshHandle` constructor (lines 7-12): reads the shared item,
increments its `refs`, and exposes `item.pmesh` as `value`.  The source
can only reach it with a valid item reference, so the out-of-range branch
returns no handle. -/
def mkHandle (itemRef : Nat) (st : St) : Option Handle × St :=
  match st.items[itemRef]? with
  | some it =>
      (some ⟨some it.pmesh, itemRef, false⟩,
       { st with items := st.items.set itemRef { it with refs := it.refs + 1 } })
  | none => (none, st)

/-- `PMeshHandle.release` (lines 14-24): a no-op on an already-released
handle; otherwise decrement the shared `refs`, and when it reaches 0
release the native cooked resource and delete the cache entry; finally
mark the handle released and null its `value`. -/
def Handle.release (h : Handle) (st : St) : Handle × St :=
  if h.released then (h, st)
  else
    match st.items[h.item]? with
    | some it =>
        let it' : Item := { it with refs := it.refs - 1 }
        let st1 : St := { st with items := st.items.set h.item it' }
        let st2 : St :=
          if it'.refs = 0 then
            { st1 with
              liveMeshes := st1.liveMeshes.filter (fun m => m != it.pmesh),
              cache := st1.cache.filter (fun p => p.1 != it.id) }
          else st1
        (⟨none, h.item, true⟩, st2)
    | none => (⟨none, h.item, true⟩, st)

/-- Lines 143-150, the common tail of a cook: free the points buffer,
destroy the descriptor, return null when no mesh was produced, else insert
a fresh entry with `refs: 0` under the key and return a new handle on it. -/
def finishCook (id : String) (bs : ℚ) (pmesh : Option Nat) (pointsPtr : Nat)
    (st : St) : Except JsError (Option Handle) × St :=
  let st1 := freeFM pointsPtr st
  match pmesh with
  | none => (.ok none, st1)
  | some rid =>
      let itemRef := st1.items.length
      let st2 : St :=
        { st1 with
          items := st1.items ++ [⟨id, rid, 0, bs⟩],
          cache := (id, itemRef) :: st1.cache }
      let (h, st3) := mkHandle itemRef st2
      (.ok h, st3)

/-- Registers a successfully cooked native mesh: a fresh resource id,
recorded live. -/
def newMesh (st : St) : Nat × St :=
  (st.nextMesh,
   { st with liveMeshes := st.nextMesh :: st.liveMeshes, nextMesh := st.nextMesh + 1 })

/-- `geometryToPxMesh(world, geometry, convex)` (lines 27-151).

Computes the bake scale and the cache key; on a cache hit returns a new
handle on the existing entry.  On a miss it copies the (de-interleaved,
scaled — see `scaledPositions`) positions into a fresh foreign buffer and
invokes the native cook routine:
* convex mode: `PHYSX.CreateConvexMesh` is called with no try/catch, so a
  throw propagates out with the points buffer still allocated;
* triangle mode: reading `index.array` of a null index throws a
  `TypeError` before any index allocation and before the cook; otherwise
  the (width-normalized) indices are copied into a second foreign buffer
  and `PHYSX.CreateTriangleMesh` runs inside try/catch/finally, the
  `finally` freeing the index buffer on every outcome.
The common tail frees the points buffer and either returns null (no entry
inserted) or inserts the new entry and returns a handle on it. -/
def acquire (env : CookEnv) (g : Geometry) (convex : Bool) (st : St) :
    Except JsError (Option Handle) × St :=
  let bs := bakeScale g
  let id := meshId g convex
  match st.cache.lookup id with
  | some itemRef =>
      let (h, st1) := mkHandle itemRef st
      (.ok h, st1)
  | none =>
      let (pointsPtr, st1) := mallocFM .points st
      if convex then
        let st2 : St := { st1 with cookCount := st1.cookCount + 1 }
        match env g true with
        | .throws => (.error .thrown, st2)
        | .ok =>
            let (rid, st3) := newMesh st2
            finishCook id bs (some rid) pointsPtr st3
        | .nullResult => finishCook id bs none pointsPtr st2
      else
        match g.index with
        | none => (.error .typeError, st1)
        | some ib =>
            let _indices := normalizeIndices ib
            let (indexPtr, st2) := mallocFM .indexData st1
            let st3 : St := { st2 with cookCount := st2.cookCount + 1 }
            match env g false with
            | .ok =>
                let (rid, st4) := newMesh st3
                finishCook id bs (some rid) pointsPtr (freeFM indexPtr st4)
            | .nullResult => finishCook id bs none pointsPtr (freeFM indexPtr st3)
            | .throws => finishCook id bs none pointsPtr (freeFM indexPtr st3)

/-- Well-formed foreign-memory bookkeeping: every live allocation was made
at a pointer below the fresh-pointer counter. -/
def PtrsWF (st : St) : Prop :=
  ∀ q ∈ st.livePtrs, q.1 < st.nextPtr

instance (st : St) : Decidable (PtrsWF st) :=
  inferInstanceAs (Decidable (∀ q ∈ st.livePtrs, q.1 < st.nextPtr))

/-! Concrete fixtures used by the witness theorems. -/

/-- A small geometry: unit bounding box, one triangle, 16-bit indices. -/
def gUnit : Geometry :=
  ⟨"g", 1, 1, 1, [0, 0, 0, 1, 0, 0, 0, 1, 0], some ⟨.u16, [0, 1, 2]⟩⟩

/-- A large geometry: bounding box 6 × 1 × 1, past the auto-scale threshold. -/
def gBig : Geometry :=
  ⟨"b", 6, 1, 1, [0, 0, 0, 6, 0, 0, 0, 1, 0], some ⟨.u16, [0, 1, 2]⟩⟩

/-- A geometry exactly at the threshold: bounding box 5 × 5 × 5. -/
def gFive : Geometry :=
  ⟨"f", 5, 5, 5, [0, 0, 0, 5, 0, 0, 0, 5, 0], some ⟨.u16, [0, 1, 2]⟩⟩

/-- A geometry with no index buffer (`geometry.index === null`). -/
def gNoIndex : Geometry :=
  ⟨"n", 1, 1, 1, [0, 0, 0, 1, 0, 0, 0, 1, 0], none⟩

/-- An environment whose native cook routines always succeed. -/
def envOk : CookEnv := fun _ _ => .ok

/-- An environment whose native cook routines always return null. -/
def envNull : CookEnv := fun _ _ => .nullResult

/-- An environment whose native cook routines always throw. -/
def envThrow : CookEnv := fun _ _ => .throws

/-- A state holding one cached entry with one outstanding reference. -/
def stOne : St :=
  ⟨[⟨"k", 7, 1, 1⟩], [("k", 0)], [], 0, [7], 8, 1⟩

/-- The live handle on the single entry of `stOne`. -/
def hOne : Handle :=
  ⟨some 7, 0, false⟩

/-! Helper lemmas about lists. -/

/-- Reducing each element of a list of bytes mod 2^16 changes nothing. -/
theorem map_mod_eq_self (l : List Nat) (hl : ∀ v ∈ l, v < 256) :
    l.map (fun v => v % 65536) = l := by
  induction l with
  | nil => rfl
  | cons a t ih =>
      have ha : a < 256 := hl a (List.mem_cons_self a t)
      have ht : ∀ v ∈ t, v < 256 := fun v hv => hl v (List.mem_cons_of_mem a hv)
      simp [ih ht, Nat.mod_eq_of_lt (by omega : a < 65536)]

/-- Setting the last element of a one-longer list rewrites just it. -/
theorem set_concat_length (l : List α) (a b : α) :
    (l ++ [a]).set l.length b = l ++ [b] := by
  simp [List.set_append]

/-- Looking a key up after filtering that key out always misses. -/
theorem lookup_filter_ne (a : String) (l : List (String × Nat)) :
    List.lookup a (l.filter (fun p => p.1 != a)) = none := by
  induction l with
  | nil => rfl
  | cons q t ih =>
      by_cases hq : q.1 = a
      · simp [List.filter_cons, hq, ih]
      · have hba : (a == q.1) = false := by
          simp only [beq_eq_false_iff_ne]
          exact fun e => hq e.symm
        simp [List.filter_cons, hq, List.lookup, hba, ih]

/-- Filtering out a pointer above every live allocation changes nothing. -/
theorem filter_bne_of_lt (l : List (Nat × AllocKind)) (n : Nat)
    (hl : ∀ q ∈ l, q.1 < n) : l.filter (fun q => q.1 != n) = l := by
  induction l with
  | nil => rfl
  | cons a t ih =>
      have ha : a.1 ≠ n := Nat.ne_of_lt (hl a (List.mem_cons_self a t))
      have ht : ∀ q ∈ t, q.1 < n := fun q hq => hl q (List.mem_cons_of_mem a hq)
      simp [List.filter_cons, ha, ih ht]

/-- Indexing the second of two appended elements. -/
theorem getElem_concat_two (l : List α) (a b : α)
    (h : l.length + 1 < (l ++ [a, b]).length) :
    (l ++ [a, b])[l.length + 1] = b := by
  rw [List.getElem_append_right (by simp)]
  simp

/-! The claims. -/

/-- C6: the bake scale equals `TARGET_EXTENT / maxExtent` exactly when
`maxExtent > TARGET_EXTENT * 5` (and is then `< 1`), and equals `1`
otherwise; in particular `maxExtent = TARGET_EXTENT * 5` yields `1`. -/
theorem bakeScale_threshold (g : Geometry) :
    (TARGET_EXTENT * 5 < maxExtent g →
      bakeScale g = TARGET_EXTENT / maxExtent g ∧ bakeScale g < 1) ∧
    (¬ TARGET_EXTENT * 5 < maxExtent g → bakeScale g = 1) ∧
    (maxExtent g = TARGET_EXTENT * 5 → bakeScale g = 1) := by
  refine ⟨fun h => ⟨by simp [bakeScale, h], ?_⟩,
    fun h => by simp [bakeScale, h], fun h => ?_⟩
  · have h5 : (5 : ℚ) < maxExtent g := by
      have := h; rw [TARGET_EXTENT] at this; linarith
    have hb : bakeScale g = TARGET_EXTENT / maxExtent g := by simp [bakeScale, h]
    rw [hb, TARGET_EXTENT, div_lt_one (by linarith)]
    linarith
  · have hn : ¬ TARGET_EXTENT * 5 < maxExtent g := by rw [h]; exact lt_irrefl _
    simp [bakeScale, hn]

/-- C6 witness: `gBig` (maxExtent 6) is scaled by 1/6 < 1, `gUnit`
(maxExtent 1) and `gFive` (maxExtent exactly 5) are not scaled. -/
theorem bakeScale_threshold_witness :
    (bakeScale gBig = TARGET_EXTENT / maxExtent gBig ∧ bakeScale gBig < 1) ∧
    bakeScale gUnit = 1 ∧ bakeScale gFive = 1 :=
  ⟨(bakeScale_threshold gBig).1 (by norm_num [TARGET_EXTENT, maxExtent, gBig, max_def]),
   (bakeScale_threshold gUnit).2.1 (by norm_num [TARGET_EXTENT, maxExtent, gUnit, max_def]),
   (bakeScale_threshold gFive).2.2 (by norm_num [TARGET_EXTENT, maxExtent, gFive, max_def])⟩

/-- C7: when the bake scale is not `1` the scaled buffer is a fresh buffer
of the same length with every element multiplied by the scale; when it is
`1` the original positions buffer itself is passed through (the source
takes the `bakeScale === 1.0` ternary branch, allocating nothing).  The
caller's buffers are values the embedding never rebinds: the source only
reads `positions[i]` and writes into the freshly allocated
`Float32Array`. -/
theorem scaledPositions_spec (g : Geometry) :
    (bakeScale g ≠ 1 →
      (scaledPositions g).length = g.positions.length ∧
      ∀ i : Nat, (scaledPositions g)[i]? =
        (g.positions[i]?).map (fun p => p * bakeScale g)) ∧
    (bakeScale g = 1 → scaledPositions g = g.positions) := by
  refine ⟨fun h => ⟨by simp [scaledPositions, h], fun i => ?_⟩,
    fun h => by simp [scaledPositions, h]⟩
  simp [scaledPositions, h]

/-- C7 witness: `gBig` is rescaled element-wise by 1/6; `gUnit` passes its
buffer through unchanged. -/
theorem scaledPositions_spec_witness :
    ((scaledPositions gBig).length = gBig.positions.length ∧
      ∀ i : Nat, (scaledPositions gBig)[i]? =
        (gBig.positions[i]?).map (fun p => p * bakeScale gBig)) ∧
    scaledPositions gUnit = gUnit.positions :=
  ⟨(scaledPositions_spec gBig).1
    (by norm_num [bakeScale, TARGET_EXTENT, maxExtent, gBig, max_def]),
   (scaledPositions_spec gUnit).2
    (by norm_num [bakeScale, TARGET_EXTENT, maxExtent, gUnit, max_def])⟩

/-- C9: an 8-bit index buffer is widened to a 16-bit buffer with the very
same element values (hence the same length), provided its values are valid
bytes; 16-bit and 32-bit buffers are passed to cooking unchanged. -/
theorem normalizeIndices_spec (ib : IndexBuffer) :
    (ib.width = .u8 → (∀ v ∈ ib.data, v < 256) →
      (normalizeIndices ib).width = .u16 ∧ (normalizeIndices ib).data = ib.data) ∧
    (ib.width = .u16 ∨ ib.width = .u32 → normalizeIndices ib = ib) := by
  obtain ⟨w, d⟩ := ib
  refine ⟨fun hw hv => ?_, fun hw => ?_⟩
  · cases w with
    | u8 => exact ⟨rfl, map_mod_eq_self d hv⟩
    | u16 => cases hw
    | u32 => cases hw
  · cases w with
    | u8 => rcases hw with hw | hw <;> cases hw
    | u16 => rfl
    | u32 => rfl

/-- C9 witness: the byte buffer `[0, 1, 2, 255]` widens to a 16-bit buffer
with identical values; a 16-bit buffer is untouched. -/
theorem normalizeIndices_spec_witness :
    ((normalizeIndices ⟨.u8, [0, 1, 2, 255]⟩).width = .u16 ∧
      (normalizeIndices ⟨.u8, [0, 1, 2, 255]⟩).data = [0, 1, 2, 255]) ∧
    normalizeIndices ⟨.u16, [0, 1, 2]⟩ = ⟨.u16, [0, 1, 2]⟩ :=
  ⟨(normalizeIndices_spec ⟨.u8, [0, 1, 2, 255]⟩).1 rfl (by decide),
   (normalizeIndices_spec ⟨.u16, [0, 1, 2]⟩).2 (Or.inl rfl)⟩

/-- C2: on a not-yet-released handle over a live entry, `release` marks
the handle released, decrements the entry's refCount by exactly one, and
when the result is 0 it releases the native cooked resource and removes
the entry from the cache (when it is not 0, cache and native resources are
untouched); calling `release` again on the returned handle changes
nothing at all. -/
theorem release_idempotent (st : St) (h : Handle) (it : Item)
    (hrel : h.released = false) (hit : st.items[h.item]? = some it) :
    ((h.release st).1 = ⟨none, h.item, true⟩) ∧
    (((h.release st).2).items[h.item]? = some { it with refs := it.refs - 1 }) ∧
    (it.refs - 1 = 0 →
      it.pmesh ∉ ((h.release st).2).liveMeshes ∧
      List.lookup it.id ((h.release st).2).cache = none) ∧
    (it.refs - 1 ≠ 0 →
      ((h.release st).2).cache = st.cache ∧
      ((h.release st).2).liveMeshes = st.liveMeshes) ∧
    ((h.release st).1.release ((h.release st).2)) = ((h.release st).1, (h.release st).2) := by
  have hlt : h.item < st.items.length := by
    by_contra hc
    push_neg at hc
    rw [List.getElem?_eq_none hc] at hit
    cases hit
  by_cases hz : it.refs - 1 = 0
  · simp [Handle.release, hrel, hit, hz, List.getElem?_set_self (by simpa using hlt),
      lookup_filter_ne, List.mem_filter]
  · simp [Handle.release, hrel, hit, hz, List.getElem?_set_self (by simpa using hlt)]

/-- C2 witness: releasing the only handle of `stOne` empties the cache and
releases native resource 7; a second release is a no-op. -/
theorem release_idempotent_witness :
    hOne.released = false ∧ stOne.items[hOne.item]? = some ⟨"k", 7, 1, 1⟩ ∧
    ((hOne.release stOne).1 = ⟨none, hOne.item, true⟩) ∧
    (((hOne.release stOne).2).items[hOne.item]? = some { id := "k", pmesh := 7, refs := 0, bake := 1 }) ∧
    ((1 : Int) - 1 = 0 →
      7 ∉ ((hOne.release stOne).2).liveMeshes ∧
      List.lookup "k" ((hOne.release stOne).2).cache = none) ∧
    ((1 : Int) - 1 ≠ 0 →
      ((hOne.release stOne).2).cache = stOne.cache ∧
      ((hOne.release stOne).2).liveMeshes = stOne.liveMeshes) ∧
    ((hOne.release stOne).1.release ((hOne.release stOne).2))
      = ((hOne.release stOne).1, (hOne.release stOne).2) :=
  ⟨rfl, rfl, release_idempotent stOne hOne ⟨"k", 7, 1, 1⟩ rfl rfl⟩

/-- C1: with the key uncached and a native cook that succeeds (and, in
TriangleMesh mode, an index buffer present), two sequential `acquire`
calls before any release return two handles referencing the same
underlying cache entry, that entry's refCount is 2, and the second call
performs no native cook invocation (only the first call raises
`cookCount`). -/
theorem acquire_twice_shares_entry (env : CookEnv) (g : Geometry) (convex : Bool)
    (st : St)
    (hlk : List.lookup (meshId g convex) st.cache = none)
    (henv : env g convex = .ok)
    (hix : convex = false → ∃ ib, g.index = some ib) :
    ∃ h1 h2 : Handle, ∃ it : Item,
      (acquire env g convex st).1 = .ok (some h1) ∧
      (acquire env g convex (acquire env g convex st).2).1 = .ok (some h2) ∧
      h1.item = h2.item ∧
      ((acquire env g convex (acquire env g convex st).2).2).items[h1.item]? = some it ∧
      it.refs = 2 ∧
      ((acquire env g convex st).2).cookCount = st.cookCount + 1 ∧
      ((acquire env g convex (acquire env g convex st).2).2).cookCount = st.cookCount + 1 := by
  cases convex with
  | true =>
      refine ⟨⟨some st.nextMesh, st.items.length, false⟩,
        ⟨some st.nextMesh, st.items.length, false⟩,
        ⟨meshId g true, st.nextMesh, 2, bakeScale g⟩, ?_, ?_, rfl, ?_, rfl, ?_, ?_⟩ <;>
        simp [acquire, hlk, henv, mallocFM, freeFM, newMesh, finishCook, mkHandle,
          List.lookup, set_concat_length, List.getElem?_concat_length]
  | false =>
      obtain ⟨ib, hib⟩ := hix rfl
      refine ⟨⟨some st.nextMesh, st.items.length, false⟩,
        ⟨some st.nextMesh, st.items.length, false⟩,
        ⟨meshId g false, st.nextMesh, 2, bakeScale g⟩, ?_, ?_, rfl, ?_, rfl, ?_, ?_⟩ <;>
        simp [acquire, hlk, henv, hib, mallocFM, freeFM, newMesh, finishCook, mkHandle,
          List.lookup, set_concat_length, List.getElem?_concat_length]

/-- C1 witness: from the empty state, two acquires of `gUnit` in convex
mode under an always-succeeding cook share one entry with refCount 2. -/
theorem acquire_twice_shares_entry_witness :
    ∃ h1 h2 : Handle, ∃ it : Item,
      (acquire envOk gUnit true St.initial).1 = .ok (some h1) ∧
      (acquire envOk gUnit true (acquire envOk gUnit true St.initial).2).1 = .ok (some h2) ∧
      h1.item = h2.item ∧
      ((acquire envOk gUnit true (acquire envOk gUnit true St.initial).2).2).items[h1.item]?
        = some it ∧
      it.refs = 2 ∧
      ((acquire envOk gUnit true St.initial).2).cookCount = St.initial.cookCount + 1 ∧
      ((acquire envOk gUnit true (acquire envOk gUnit true St.initial).2).2).cookCount
        = St.initial.cookCount + 1 :=
  acquire_twice_shares_entry envOk gUnit true St.initial rfl rfl
    (fun hc => by cases hc)

/-- C3: acquire, release back to zero (the entry is destroyed and leaves
the cache), then acquire again: the key misses, a second native cook runs
(`cookCount` rises to two), and the handle returned wraps a fresh entry —
a different item object and a different cooked native resource — never
the destroyed one. -/
theorem destroyed_not_resurrected (env : CookEnv) (g : Geometry) (convex : Bool)
    (st : St)
    (hlk : List.lookup (meshId g convex) st.cache = none)
    (henv : env g convex = .ok)
    (hix : convex = false → ∃ ib, g.index = some ib) :
    ∃ h1 h2 : Handle,
      (acquire env g convex st).1 = .ok (some h1) ∧
      List.lookup (meshId g convex) ((h1.release (acquire env g convex st).2).2).cache
        = none ∧
      (acquire env g convex ((h1.release (acquire env g convex st).2).2)).1
        = .ok (some h2) ∧
      ((acquire env g convex ((h1.release (acquire env g convex st).2).2)).2).cookCount
        = st.cookCount + 2 ∧
      h2.item ≠ h1.item ∧ h2.value ≠ h1.value := by
  cases convex with
  | true =>
      refine ⟨⟨some st.nextMesh, st.items.length, false⟩,
        ⟨some (st.nextMesh + 1), st.items.length + 1, false⟩, ?_, ?_, ?_, ?_, ?_, ?_⟩ <;>
        simp [acquire, Handle.release, hlk, henv, mallocFM, freeFM, newMesh, finishCook,
          mkHandle, List.lookup, set_concat_length, List.getElem?_concat_length,
          lookup_filter_ne, List.filter_cons, getElem_concat_two]
  | false =>
      obtain ⟨ib, hib⟩ := hix rfl
      refine ⟨⟨some st.nextMesh, st.items.length, false⟩,
        ⟨some (st.nextMesh + 1), st.items.length + 1, false⟩, ?_, ?_, ?_, ?_, ?_, ?_⟩ <;>
        simp [acquire, Handle.release, hlk, henv, hib, mallocFM, freeFM, newMesh, finishCook,
          mkHandle, List.lookup, set_concat_length, List.getElem?_concat_length,
          lookup_filter_ne, List.filter_cons, getElem_concat_two]

/-- C3 witness: acquire `gUnit` (convex) from the empty state, release to
zero, re-acquire: the second handle wraps a fresh entry and mesh. -/
theorem destroyed_not_resurrected_witness :
    ∃ h1 h2 : Handle,
      (acquire envOk gUnit true St.initial).1 = .ok (some h1) ∧
      List.lookup (meshId gUnit true)
        ((h1.release (acquire envOk gUnit true St.initial).2).2).cache = none ∧
      (acquire envOk gUnit true ((h1.release (acquire envOk gUnit true St.initial).2).2)).1
        = .ok (some h2) ∧
      ((acquire envOk gUnit true
        ((h1.release (acquire envOk gUnit true St.initial).2).2)).2).cookCount
        = St.initial.cookCount + 2 ∧
      h2.item ≠ h1.item ∧ h2.value ≠ h1.value :=
  destroyed_not_resurrected envOk gUnit true St.initial rfl rfl (fun hc => by cases hc)

/-- C4: when the native cook routine returns no cooked mesh, `acquire`
returns null, leaves the cache exactly as it was, and a second `acquire`
with the same key attempts the cook again (two cook invocations in
total) — a failed cook is never cached as a negative result. -/
theorem cook_failure_not_cached (env : CookEnv) (g : Geometry) (convex : Bool)
    (st : St)
    (hlk : List.lookup (meshId g convex) st.cache = none)
    (henv : env g convex = .nullResult)
    (hix : convex = false → ∃ ib, g.index = some ib) :
    (acquire env g convex st).1 = .ok none ∧
    ((acquire env g convex st).2).cache = st.cache ∧
    ((acquire env g convex st).2).cookCount = st.cookCount + 1 ∧
    (acquire env g convex (acquire env g convex st).2).1 = .ok none ∧
    ((acquire env g convex (acquire env g convex st).2).2).cookCount
      = st.cookCount + 2 := by
  cases convex with
  | true =>
      refine ⟨?_, ?_, ?_, ?_, ?_⟩ <;>
        simp [acquire, hlk, henv, mallocFM, freeFM, finishCook]
  | false =>
      obtain ⟨ib, hib⟩ := hix rfl
      refine ⟨?_, ?_, ?_, ?_, ?_⟩ <;>
        simp [acquire, hlk, henv, hib, mallocFM, freeFM, finishCook]

/-- C4 witness: cooking `gUnit` as a triangle mesh under an
always-rejecting cook returns null twice, leaving the cache empty and
cooking twice. -/
theorem cook_failure_not_cached_witness :
    (acquire envNull gUnit false St.initial).1 = .ok none ∧
    ((acquire envNull gUnit false St.initial).2).cache = St.initial.cache ∧
    ((acquire envNull gUnit false St.initial).2).cookCount = St.initial.cookCount + 1 ∧
    (acquire envNull gUnit false (acquire envNull gUnit false St.initial).2).1 = .ok none ∧
    ((acquire envNull gUnit false (acquire envNull gUnit false St.initial).2).2).cookCount
      = St.initial.cookCount + 2 :=
  cook_failure_not_cached envNull gUnit false St.initial rfl rfl
    (fun _ => ⟨⟨.u16, [0, 1, 2]⟩, rfl⟩)

/-- C8: acquiring a geometry with no index buffer in TriangleMesh mode
throws the `TypeError` of `index.array` — the `InvalidGeometry` contract
violation — rather than returning the null of a recoverable cooking
failure; it happens before the native cook routine runs (`cookCount` is
unchanged) and before any foreign-memory allocation for indices. -/
theorem missing_index_contract_violation (env : CookEnv) (g : Geometry) (st : St)
    (hix : g.index = none)
    (hlk : List.lookup (meshId g false) st.cache = none) :
    (acquire env g false st).1 = .error .typeError ∧
    ((acquire env g false st).2).cookCount = st.cookCount ∧
    ((acquire env g false st).2).livePtrs.filter (fun q => q.2 == AllocKind.indexData)
      = st.livePtrs.filter (fun q => q.2 == AllocKind.indexData) := by
  refine ⟨?_, ?_, ?_⟩ <;>
    simp [acquire, hlk, hix, mallocFM, List.filter_cons]

/-- C8 witness: `gNoIndex` (no index buffer) acquired in TriangleMesh
mode from the empty state raises the contract violation before cooking. -/
theorem missing_index_contract_violation_witness :
    (acquire envOk gNoIndex false St.initial).1 = .error .typeError ∧
    ((acquire envOk gNoIndex false St.initial).2).cookCount = St.initial.cookCount ∧
    ((acquire envOk gNoIndex false St.initial).2).livePtrs.filter
        (fun q => q.2 == AllocKind.indexData)
      = St.initial.livePtrs.filter (fun q => q.2 == AllocKind.indexData) :=
  missing_index_contract_violation envOk gNoIndex St.initial rfl rfl

/-- C5 counterexample: the claim promises that every transient
foreign-memory allocation is freed before the call returns even when the
native cook routine throws, in both modes.  In convex mode the call to
`PHYSX.CreateConvexMesh` (line 90) is guarded by no try/finally, so a
throw escapes with the points buffer still allocated: from the empty
state, cooking `gUnit` in convex mode under a throwing cook leaves the
allocation `(0, points)` live. -/
theorem convex_throw_leaks_points_buffer :
    (acquire envThrow gUnit true St.initial).1 = .error .thrown ∧
    ((acquire envThrow gUnit true St.initial).2).livePtrs = [(0, .points)] ∧
    St.initial.livePtrs = [] :=
  ⟨rfl, rfl, rfl⟩

/-- C5 amended: on every path on which `geometryToPxMesh` returns
normally — a cache hit, a successful cook, or a cook that returns a null
result, in either mode — all transient foreign-memory allocations of the
call are freed before it returns.  (When an exception escapes the call —
a convex-mode cook throw, or the missing-index `TypeError` — the points
buffer is not freed; in TriangleMesh mode the index buffer alone is
protected by try/finally.) -/
theorem normal_return_frees_transients (env : CookEnv) (g : Geometry) (convex : Bool)
    (st : St) (r : Option Handle)
    (hwf : PtrsWF st)
    (hok : (acquire env g convex st).1 = .ok r) :
    ((acquire env g convex st).2).livePtrs = st.livePtrs := by
  have hfree : ∀ k, ((st.nextPtr, k) :: st.livePtrs).filter
      (fun q => q.1 != st.nextPtr) = st.livePtrs := by
    intro k
    rw [List.filter_cons_of_neg (by simp)]
    exact filter_bne_of_lt _ _ hwf
  have hfree2 : ∀ k k', ((st.nextPtr + 1, k') :: (st.nextPtr, k) :: st.livePtrs).filter
      (fun q => q.1 != st.nextPtr + 1) = (st.nextPtr, k) :: st.livePtrs := by
    intro k k'
    rw [List.filter_cons_of_neg (by simp)]
    refine filter_bne_of_lt _ _ ?_
    intro q hq
    rcases List.mem_cons.mp hq with rfl | h
    · exact Nat.lt_succ_self _
    · exact Nat.lt_succ_of_lt (hwf q h)
  cases hc : List.lookup (meshId g convex) st.cache with
  | some itemRef =>
      cases hmi : st.items[itemRef]? <;>
        simp [acquire, hc, mkHandle, hmi]
  | none =>
      cases convex with
      | true =>
          cases he : env g true with
          | throws => simp [acquire, hc, he, mallocFM] at hok
          | ok =>
              simp [acquire, hc, he, mallocFM, freeFM, newMesh, finishCook, mkHandle,
                hfree, set_concat_length, List.getElem?_concat_length]
          | nullResult =>
              simp [acquire, hc, he, mallocFM, freeFM, finishCook, hfree]
      | false =>
          cases hib : g.index with
          | none => simp [acquire, hc, hib, mallocFM] at hok
          | some ib =>
              cases he : env g false with
              | ok =>
                  simp [acquire, hc, hib, he, mallocFM, freeFM, newMesh, finishCook,
                    mkHandle, hfree, hfree2, set_concat_length,
                    List.getElem?_concat_length]
              | nullResult =>
                  simp [acquire, hc, hib, he, mallocFM, freeFM, finishCook, hfree, hfree2]
              | throws =>
                  simp [acquire, hc, hib, he, mallocFM, freeFM, finishCook, hfree, hfree2]

/-- C5 amended witness: a successful convex cook of `gUnit` from the
empty state returns with no foreign allocation left live. -/
theorem normal_return_frees_transients_witness :
    PtrsWF St.initial ∧
    ((acquire envOk gUnit true St.initial).2).livePtrs = St.initial.livePtrs :=
  ⟨by decide,
   normal_return_frees_transients envOk gUnit true St.initial
     (some ⟨some 0, 0, false⟩) (by decide) rfl⟩

/-- C10: a handle returned by `acquire` holds in `value` exactly the
cooked native resource of its cache entry and is not yet released; its
first `release` (against any state) returns it with `value` nulled and
`released` set, and any further release keeps `value` null — a released
handle never exposes the native resource again. -/
theorem handle_value_lifecycle (env : CookEnv) (g : Geometry) (convex : Bool)
    (st : St) (h : Handle)
    (hacq : (acquire env g convex st).1 = .ok (some h)) :
    (∃ it : Item, ((acquire env g convex st).2).items[h.item]? = some it ∧
      h.value = some it.pmesh ∧ h.released = false) ∧
    (∀ st' : St, (h.release st').1 = ⟨none, h.item, true⟩) ∧
    (∀ st' : St, ((⟨none, h.item, true⟩ : Handle).release st').1
      = ⟨none, h.item, true⟩) := by
  have key : ∃ it : Item, ((acquire env g convex st).2).items[h.item]? = some it ∧
      h.value = some it.pmesh ∧ h.released = false := by
    cases hc : List.lookup (meshId g convex) st.cache with
    | some itemRef =>
        cases hmi : st.items[itemRef]? with
        | some it =>
            have hlt : itemRef < st.items.length := by
              by_contra hy
              push_neg at hy
              rw [List.getElem?_eq_none hy] at hmi
              cases hmi
            simp only [acquire, hc, mkHandle, hmi, Except.ok.injEq,
              Option.some.injEq] at hacq
            subst hacq
            refine ⟨{ it with refs := it.refs + 1 }, ?_, rfl, rfl⟩
            simp [acquire, hc, mkHandle, hmi,
              List.getElem?_set_self (by simpa using hlt)]
        | none => simp [acquire, hc, mkHandle, hmi] at hacq
    | none =>
        cases convex with
        | true =>
            cases he : env g true with
            | throws => simp [acquire, hc, he, mallocFM] at hacq
            | nullResult =>
                simp [acquire, hc, he, mallocFM, freeFM, finishCook] at hacq
            | ok =>
                simp [acquire, hc, he, mallocFM, freeFM, newMesh, finishCook,
                  mkHandle, List.getElem?_concat_length] at hacq
                subst hacq
                refine ⟨⟨meshId g true, st.nextMesh, 0 + 1, bakeScale g⟩, ?_, rfl, rfl⟩
                simp [acquire, hc, he, mallocFM, freeFM, newMesh, finishCook,
                  mkHandle, set_concat_length, List.getElem?_concat_length]
        | false =>
            cases hib : g.index with
            | none => simp [acquire, hc, hib, mallocFM] at hacq
            | some ib =>
                cases he : env g false with
                | throws =>
                    simp [acquire, hc, hib, he, mallocFM, freeFM, finishCook] at hacq
                | nullResult =>
                    simp [acquire, hc, hib, he, mallocFM, freeFM, finishCook] at hacq
                | ok =>
                    simp [acquire, hc, hib, he, mallocFM, freeFM, newMesh,
                      finishCook, mkHandle, List.getElem?_concat_length] at hacq
                    subst hacq
                    refine ⟨⟨meshId g false, st.nextMesh, 0 + 1, bakeScale g⟩,
                      ?_, rfl, rfl⟩
                    simp [acquire, hc, hib, he, mallocFM, freeFM, newMesh, finishCook,
                      mkHandle, set_concat_length, List.getElem?_concat_length]
  obtain ⟨it, hget, hval, hrel⟩ := key
  refine ⟨⟨it, hget, hval, hrel⟩, ?_, fun st' => rfl⟩
  intro st'
  simp only [Handle.release, hrel, Bool.false_eq_true, if_false]
  cases hmi2 : st'.items[h.item]? <;> simp [hmi2]

/-- C10 witness: the handle of a fresh convex acquire of `gUnit` exposes
mesh 0; releasing it nulls `value`, and a further release keeps it null. -/
theorem handle_value_lifecycle_witness :
    (∃ it : Item,
      ((acquire envOk gUnit true St.initial).2).items[(0 : Nat)]? = some it ∧
      (some 0 : Option Nat) = some it.pmesh ∧ (false : Bool) = false) ∧
    (∀ st' : St, ((⟨some 0, 0, false⟩ : Handle).release st').1 = ⟨none, 0, true⟩) ∧
    (∀ st' : St, ((⟨none, 0, true⟩ : Handle).release st').1 = ⟨none, 0, true⟩) :=
  handle_value_lifecycle envOk gUnit true St.initial ⟨some 0, 0, false⟩ rfl

end Metameme
